import Mathlib

/-!
Shallow embedding of the Markowitz portfolio optimizer
(src/optimizer.py and src/data_fetch/data_fetcher.py).

Modelling conventions:
- Float values are modelled as exact rationals.
- The external SciPy solver (scipy.optimize.minimize) is an oracle: each
  operation receives the solver's result (final point and success flag) as an
  explicit argument of type OptResult.
- The float square root np.sqrt is an oracle function parameter sqrtF.
- A float division whose denominator is zero yields a non-finite IEEE value
  (NaN or +-inf), not an exception; it is modelled as Option.none at the
  value level (fdiv).
- A Python exception escaping a function is modelled as Option.none at the
  function's result type.
-/

namespace Markowitz

/-- Result of a call to scipy.optimize.minimize: the final iterate x and the
success flag reported by the solver. -/
structure OptResult where
  x : List ℚ
  success : Bool
  deriving DecidableEq

/-- dict(zip(assets, xs)): pairs asset names with values, truncating at the
shorter list, as Python's zip does. -/
def zipDict (assets : List String) (xs : List ℚ) : List (String × ℚ) :=
  assets.zip xs

/-- np.dot on vectors; entries beyond the shorter list contribute 0 (the code
only uses it on aligned vectors). -/
def dotQ : List ℚ → List ℚ → ℚ
  | a :: as, b :: bs => a * b + dotQ as bs
  | _, _ => 0

/-- np.dot(cov, w). -/
def matVec (cov : List (List ℚ)) (w : List ℚ) : List ℚ :=
  cov.map (fun row => dotQ row w)

/-- np.dot(weights, np.dot(cov, weights)), the portfolio variance. -/
def quadForm (cov : List (List ℚ)) (w : List ℚ) : ℚ :=
  dotQ w (matVec cov w)

/-- Float division a/b: none models the non-finite IEEE result (NaN or
+-inf) produced when b = 0; no exception is raised by numpy scalars. -/
def fdiv (a b : ℚ) : Option ℚ :=
  if b = 0 then none else some (a / b)

/-- np.sqrt(np.dot(w, np.dot(cov, w))): sqrtF is the float square root,
passed as an oracle. -/
def volatility (sqrtF : ℚ → ℚ) (cov : List (List ℚ)) (w : List ℚ) : ℚ :=
  sqrtF (quadForm cov w)

/-- The neg_sharpe objective inside Portfolio.max_sharpe: -ret / vol.
none models the non-finite value produced when vol = 0. -/
def neg_sharpe (sqrtF : ℚ → ℚ) (mean : List ℚ) (cov : List (List ℚ)) (w : List ℚ) :
    Option ℚ :=
  fdiv (-(dotQ w mean)) (volatility sqrtF cov w)

/-- The derived state of Portfolio.__init__: the asset list, the annualized
mean-return vector and the annualized covariance matrix.  The claims quantify
over arbitrary return models, so mean and cov are taken as given. -/
structure Model where
  assets : List String
  mean : List ℚ
  cov : List (List ℚ)

/-- Portfolio.max_sharpe: runs the solver and returns
dict(zip(self.assets, result.x)) unconditionally; result.success is never
consulted (optimizer.py lines 27-28). -/
def max_sharpe (assets : List String) (result : OptResult) : List (String × ℚ) :=
  zipDict assets result.x

/-- Portfolio.min_vol: runs the solver and returns
dict(zip(self.assets, result.x)) unconditionally; result.success is never
consulted (optimizer.py lines 41-42). -/
def min_vol (assets : List String) (result : OptResult) : List (String × ℚ) :=
  zipDict assets result.x

/-- Portfolio._optimize_for_return (leading underscore dropped):
dict(zip(self.assets, result.x)) if result.success else None
(optimizer.py line 92). -/
def optimize_for_return (assets : List String) (result : OptResult) :
    Option (List (String × ℚ)) :=
  if result.success then some (zipDict assets result.x) else none

/-- Python dict lookup weights[a] on an association list; none models the
KeyError raised when the key is absent. -/
def lookup? (weights : List (String × ℚ)) (a : String) : Option ℚ :=
  (weights.find? (fun p => p.1 == a)).map Prod.snd

/-- The comprehension [weights[asset] for asset in self.assets] in
Portfolio.stats; none models the KeyError raised at a missing asset. -/
def lookupAll (weights : List (String × ℚ)) : List String → Option (List ℚ)
  | [] => some []
  | a :: as =>
    (lookup? weights a).bind (fun q => (lookupAll weights as).map (fun qs => q :: qs))

/-- The dictionary returned by Portfolio.stats: return, volatility and
Sharpe ratio.  sharpe is the float division ret / vol (non-finite, i.e.
none, when vol = 0). -/
structure StatsR where
  ret : ℚ
  vol : ℚ
  sharpe : Option ℚ
  deriving DecidableEq

/-- Portfolio.stats (optimizer.py lines 44-50): w = [weights[a] for a in
self.assets] (KeyError propagates as none), then
ret = w·mean, vol = sqrt(w'Σw), sharpe = ret / vol. -/
def stats (sqrtF : ℚ → ℚ) (model : Model) (weights : List (String × ℚ)) :
    Option StatsR :=
  (lookupAll weights model.assets).map (fun w =>
    { ret := dotQ w model.mean
      vol := volatility sqrtF model.cov w
      sharpe := fdiv (dotQ w model.mean) (volatility sqrtF model.cov w) })

/-- Portfolio.equal_weight: each asset gets weight 1/n.  (For an empty asset
list the Python dict comprehension never evaluates 1/n, so no error.) -/
def equal_weight (model : Model) : List (String × ℚ) :=
  model.assets.map (fun a => (a, 1 / (model.assets.length : ℚ)))

/-- Portfolio.market_cap_weights: the identity passthrough. -/
def market_cap_weights (market_caps : List (String × ℚ)) : List (String × ℚ) :=
  market_caps

/-- pandas Series.max over the mean vector (self.mean.max()). -/
def maxQ : List ℚ → ℚ
  | [] => 0
  | a :: as => as.foldl max a

/-- np.linspace(a, b, k) over exact rationals, endpoint inclusive:
the i-th value is a + i*(b-a)/(k-1).  For k = 1 this yields [a], for k = 0
the empty list, matching numpy. -/
def linspace (a b : ℚ) (k : ℕ) : List ℚ :=
  (List.range k).map (fun i : ℕ => a + (i : ℚ) * (b - a) / ((k : ℚ) - 1))

/-- The target grid of Portfolio.efficient_frontier:
np.linspace(min_ret, self.mean.max() * 0.95, n_points). -/
def frontier_targets (min_ret maxMean : ℚ) (k : ℕ) : List ℚ :=
  linspace min_ret (maxMean * (95 / 100)) k

/-- One iteration of the frontier loop (optimizer.py lines 65-73).  none
models a skipped point, which happens when _optimize_for_return returns
None, when the returned dict is falsy (empty), or when any exception inside
the loop body is swallowed by the bare except clause. -/
def frontier_point (sqrtF : ℚ → ℚ) (model : Model) (solver : ℚ → OptResult)
    (t : ℚ) : Option (ℚ × ℚ) :=
  (optimize_for_return model.assets (solver t)).bind (fun w =>
    if w.isEmpty then none
    else (stats sqrtF model w).map (fun st => (st.vol, st.ret)))

/-- The retained (volatility, return) pairs of the frontier sweep, in target
order. -/
def frontier_curve (sqrtF : ℚ → ℚ) (model : Model) (solver : ℚ → OptResult)
    (targets : List ℚ) : List (ℚ × ℚ) :=
  targets.filterMap (frontier_point sqrtF model solver)

/-- Portfolio.efficient_frontier (optimizer.py lines 52-75).  The initial
stats call on the min_vol weights sits outside the try block, so a KeyError
there propagates (overall none).  The solver oracle gives, for each target
return, the result of the minimize call of _optimize_for_return.  Returns
the pair (frontier_vols, frontier_rets). -/
def efficient_frontier (sqrtF : ℚ → ℚ) (model : Model) (minVolResult : OptResult)
    (solver : ℚ → OptResult) (n_points : ℕ) : Option (List ℚ × List ℚ) :=
  (stats sqrtF model (min_vol model.assets minVolResult)).map (fun s =>
    let pts := frontier_curve sqrtF model solver
      (frontier_targets s.ret (maxQ model.mean) n_points)
    (pts.map Prod.fst, pts.map Prod.snd))

/-- The default value of the n_points parameter of efficient_frontier. -/
def n_points_default : ℕ := 50

/-- efficient_frontier called without an explicit n_points argument. -/
def efficient_frontier_default (sqrtF : ℚ → ℚ) (model : Model)
    (minVolResult : OptResult) (solver : ℚ → OptResult) : Option (List ℚ × List ℚ) :=
  efficient_frontier sqrtF model minVolResult solver n_points_default

/-- A Python value stored in the mapping handled by compare_all: strategy
dicts hold weight vectors, a stats table would hold stats records. -/
inductive PyVal where
  | weights (w : List (String × ℚ))
  | statsV (s : StatsR)
  deriving DecidableEq

/-- The strategies dict built by Portfolio.compare_all (optimizer.py lines
173-180): insertion order Equal Weight, Max Sharpe, Min Volatility, then
Market Cap when the market_caps argument is truthy. -/
def compare_strategies (model : Model) (msResult mvResult : OptResult)
    (market_caps : Option (List (String × ℚ))) : List (String × List (String × ℚ)) :=
  let base := [("Equal Weight", equal_weight model),
               ("Max Sharpe", max_sharpe model.assets msResult),
               ("Min Volatility", min_vol model.assets mvResult)]
  match market_caps with
  | some m => if m.isEmpty then base else base ++ [("Market Cap", market_cap_weights m)]
  | none => base

/-- The printing loop of compare_all (optimizer.py lines 185-187): the stats
of each named strategy, computed in insertion order; none models a KeyError
escaping the loop. -/
def statsTable (sqrtF : ℚ → ℚ) (model : Model) :
    List (String × List (String × ℚ)) → Option (List (String × StatsR))
  | [] => some []
  | (name, w) :: rest =>
    (stats sqrtF model w).bind (fun st =>
      (statsTable sqrtF model rest).map (fun tl => (name, st) :: tl))

/-- Portfolio.compare_all (optimizer.py lines 171-189): builds the
strategies dict, computes and prints the stats of each strategy, and returns
the strategies dict itself.  The first component is the printed stats table
(the observable side effect), the second is the value the function returns:
the ordered mapping from strategy name to its weight vector. -/
def compare_all (sqrtF : ℚ → ℚ) (model : Model) (msResult mvResult : OptResult)
    (market_caps : Option (List (String × ℚ))) :
    Option (List (String × StatsR) × List (String × PyVal)) :=
  let strategies := compare_strategies model msResult mvResult market_caps
  (statsTable sqrtF model strategies).map (fun tbl =>
    (tbl, strategies.map (fun p => (p.1, PyVal.weights p.2))))

/-- Following the spec's words, for comparison with compare_all: computes
the stats for every named strategy and returns the stats themselves as the
ordered mapping. -/
def compareStrategies_specVersion (sqrtF : ℚ → ℚ) (model : Model)
    (named : List (String × List (String × ℚ))) : Option (List (String × PyVal)) :=
  (statsTable sqrtF model named).map (fun tbl =>
    tbl.map (fun p => (p.1, PyVal.statsV p.2)))

/-- get_market_caps, first phase (data_fetcher.py lines 12-19): each
ticker's fetched market cap; a lookup outcome of none models either a
missing marketCap key or a raised exception, and both fall back to 1e9. -/
def raw_caps (lookups : List (String × Option ℚ)) : List (String × ℚ) :=
  lookups.map (fun p => (p.1, p.2.getD ((10 : ℚ) ^ 9)))

/-- sum(market_caps.values()). -/
def total_cap (lookups : List (String × Option ℚ)) : ℚ :=
  ((raw_caps lookups).map Prod.snd).sum

/-- get_market_caps (data_fetcher.py lines 10-23): substitute the fallback
for missing data, then normalize each cap by the total. -/
def get_market_caps (lookups : List (String × Option ℚ)) : List (String × ℚ) :=
  (raw_caps lookups).map (fun p => (p.1, p.2 / total_cap lookups))

/-- The claim's version of get_market_caps, with a 1e-9 fallback instead of
the code's 1e9, for comparison. -/
def get_market_caps_claimFallback (lookups : List (String × Option ℚ)) :
    List (String × ℚ) :=
  let caps := lookups.map (fun p => (p.1, p.2.getD ((1 : ℚ) / 10 ^ 9)))
  let total := (caps.map Prod.snd).sum
  caps.map (fun p => (p.1, p.2 / total))

/-- Feasibility of a point for _optimize_for_return's constraints at
tolerance tol: sum-to-one, target-return equality, and the [0,1] box. -/
def feasibleForTarget (mean : List ℚ) (target tol : ℚ) (w : List ℚ) : Prop :=
  |w.sum - 1| ≤ tol ∧ |dotQ w mean - target| ≤ tol ∧ ∀ q ∈ w, -tol ≤ q ∧ q ≤ 1 + tol

/-! ## Helper lemmas -/

lemma zipDict_values (assets : List String) (xs : List ℚ)
    (h : xs.length = assets.length) : (zipDict assets xs).map Prod.snd = xs :=
  List.map_snd_zip assets xs (le_of_eq h)

lemma dotQ_nil_right (w : List ℚ) : dotQ w [] = 0 := by
  cases w <;> rfl

lemma lookupAll_isSome (weights : List (String × ℚ)) (as : List String) :
    (lookupAll weights as).isSome ↔ ∀ a ∈ as, (lookup? weights a).isSome := by
  induction as with
  | nil => simp [lookupAll]
  | cons a as ih =>
    cases h1 : lookup? weights a with
    | none => simp [lookupAll, h1]
    | some q => simp [lookupAll, h1, ih]

/-! ## Claims -/

/-- Claim C1, counterexample.  max_sharpe returns the solver's point
unvalidated: with a solver result whose point is [2, 0] (success or not),
the returned weight vector sums to 2 and has a weight of 2, violating both
the sum-to-one tolerance and the upper bound; _optimize_for_return likewise
returns an out-of-bounds point whenever the solver marks it successful. -/
theorem C1_counterexample :
    max_sharpe ["A", "B"] ⟨[2, 0], false⟩ = [("A", 2), ("B", 0)]
    ∧ ¬ |((max_sharpe ["A", "B"] ⟨[2, 0], false⟩).map Prod.snd).sum - 1| ≤ 1 / 1000000
    ∧ ¬ (∀ p ∈ max_sharpe ["A", "B"] ⟨[2, 0], false⟩,
          -(1 / 1000000) ≤ p.2 ∧ p.2 ≤ 1 + 1 / 1000000)
    ∧ optimize_for_return ["A"] ⟨[5], true⟩ = some [("A", 5)]
    ∧ ¬ ((5 : ℚ) ≤ 1 + 1 / 1000000) := by
  refine ⟨rfl, ?_, ?_, rfl, by norm_num⟩
  · simp [max_sharpe, zipDict]
    norm_num
  · intro h
    have := (h ("A", 2) (by simp [max_sharpe, zipDict])).2
    norm_num at this

/-- Claim C1 (amended): the weight vectors returned by max_sharpe, min_vol
and _optimize_for_return are exactly the solver's point zipped with the
asset names; no validation is performed by the code, so the sum-to-one and
[0,1] bounds invariants (within 1e-6) hold for a returned vector exactly
when the solver's point already satisfies them. -/
theorem C1_weights_unvalidated_amended (assets : List String) (r : OptResult)
    (hlen : r.x.length = assets.length)
    (hsum : |r.x.sum - 1| ≤ 1 / 1000000)
    (hbd : ∀ q ∈ r.x, -(1 / 1000000) ≤ q ∧ q ≤ 1 + 1 / 1000000) :
    (|((max_sharpe assets r).map Prod.snd).sum - 1| ≤ 1 / 1000000
      ∧ ∀ p ∈ max_sharpe assets r, -(1 / 1000000) ≤ p.2 ∧ p.2 ≤ 1 + 1 / 1000000)
    ∧ (|((min_vol assets r).map Prod.snd).sum - 1| ≤ 1 / 1000000
      ∧ ∀ p ∈ min_vol assets r, -(1 / 1000000) ≤ p.2 ∧ p.2 ≤ 1 + 1 / 1000000)
    ∧ ∀ w, optimize_for_return assets r = some w →
        |(w.map Prod.snd).sum - 1| ≤ 1 / 1000000
        ∧ ∀ p ∈ w, -(1 / 1000000) ≤ p.2 ∧ p.2 ≤ 1 + 1 / 1000000 := by
  have hvals : (zipDict assets r.x).map Prod.snd = r.x := zipDict_values assets r.x hlen
  have hmem : ∀ p ∈ zipDict assets r.x, -(1 / 1000000) ≤ p.2 ∧ p.2 ≤ 1 + 1 / 1000000 :=
    fun p hp => hbd p.2 (List.of_mem_zip hp).2
  have hzip : |((zipDict assets r.x).map Prod.snd).sum - 1| ≤ 1 / 1000000 := by
    rw [hvals]; exact hsum
  refine ⟨⟨hzip, hmem⟩, ⟨hzip, hmem⟩, ?_⟩
  intro w hw
  have : w = zipDict assets r.x := by
    by_cases hs : r.success <;> simp [optimize_for_return, hs] at hw
    exact hw.symm
  subst this
  exact ⟨hzip, hmem⟩

/-- Claim C1, witness for the amended theorem at a concrete input. -/
theorem C1_witness :
    ([(1 : ℚ) / 2, 1 / 2].length = (["A", "B"] : List String).length
      ∧ |[(1 : ℚ) / 2, 1 / 2].sum - 1| ≤ 1 / 1000000
      ∧ ∀ q ∈ [(1 : ℚ) / 2, 1 / 2], -(1 / 1000000) ≤ q ∧ q ≤ 1 + 1 / 1000000)
    ∧ |((max_sharpe ["A", "B"] ⟨[1 / 2, 1 / 2], true⟩).map Prod.snd).sum - 1|
        ≤ 1 / 1000000 := by
  have h1 : [(1 : ℚ) / 2, 1 / 2].length = (["A", "B"] : List String).length := rfl
  have h2 : |[(1 : ℚ) / 2, 1 / 2].sum - 1| ≤ 1 / 1000000 := by norm_num
  have h3 : ∀ q ∈ [(1 : ℚ) / 2, 1 / 2], -(1 / 1000000) ≤ q ∧ q ≤ 1 + 1 / 1000000 := by
    intro q hq
    rcases List.mem_cons.mp hq with h | h
    · subst h; norm_num
    · simp at h; subst h; norm_num
  exact ⟨⟨h1, h2, h3⟩,
    (C1_weights_unvalidated_amended ["A", "B"] ⟨[1 / 2, 1 / 2], true⟩ h1 h2 h3).1.1⟩

/-- Claim C2, counterexample.  With success = false the solver's point is
still returned as a weight vector, and the output is identical to the
success = true output, so the caller cannot observe convergence failure. -/
theorem C2_counterexample :
    max_sharpe ["A", "B"] ⟨[7, -3], false⟩ = [("A", 7), ("B", -3)]
    ∧ min_vol ["A", "B"] ⟨[7, -3], false⟩ = [("A", 7), ("B", -3)]
    ∧ max_sharpe ["A", "B"] ⟨[7, -3], false⟩ = max_sharpe ["A", "B"] ⟨[7, -3], true⟩
    ∧ min_vol ["A", "B"] ⟨[7, -3], false⟩ = min_vol ["A", "B"] ⟨[7, -3], true⟩ :=
  ⟨rfl, rfl, rfl, rfl⟩

/-- Claim C2 (amended): max_sharpe and min_vol ignore the solver's success
flag entirely and return its point unconditionally; only
_optimize_for_return consults result.success, returning None on failure. -/
theorem C2_success_ignored_amended (assets : List String) (x : List ℚ) (b : Bool) :
    max_sharpe assets ⟨x, b⟩ = zipDict assets x
    ∧ min_vol assets ⟨x, b⟩ = zipDict assets x
    ∧ optimize_for_return assets ⟨x, false⟩ = none
    ∧ optimize_for_return assets ⟨x, true⟩ = some (zipDict assets x) :=
  ⟨rfl, rfl, rfl, rfl⟩

/-- Claim C3, counterexample.  On a zero-volatility portfolio (one asset
with zero variance) stats returns a normal record whose Sharpe is the
non-finite float division result (modelled none) instead of failing, and
max_sharpe's neg_sharpe objective likewise yields a non-finite value; no
DegenerateInputError exists in the code. -/
theorem C3_counterexample :
    stats (fun q => q) (Model.mk ["A"] [1 / 10] [[0]]) [("A", 1)]
      = some { ret := 1 / 10, vol := 0, sharpe := none }
    ∧ stats (fun q => q) (Model.mk ["A"] [1 / 10] [[0]]) [("A", 1)] ≠ none
    ∧ neg_sharpe (fun q => q) [1 / 10] [[0]] [1] = none := by
  refine ⟨?_, ?_, ?_⟩
  · simp [stats, lookupAll, lookup?, dotQ, volatility, quadForm, matVec, fdiv]
  · simp [stats, lookupAll, lookup?]
  · simp [neg_sharpe, volatility, quadForm, matVec, dotQ, fdiv]

/-- Claim C3 (amended): when the computed volatility is zero, stats returns
a normal stats record with vol = 0 and a non-finite Sharpe value (none),
and the neg_sharpe objective returns a non-finite value (none); neither
raises any error. -/
theorem C3_zero_vol_amended (sqrtF : ℚ → ℚ) (model : Model)
    (weights : List (String × ℚ)) (w : List ℚ)
    (hl : lookupAll weights model.assets = some w)
    (hvol : sqrtF (quadForm model.cov w) = 0) :
    stats sqrtF model weights
      = some { ret := dotQ w model.mean, vol := 0, sharpe := none }
    ∧ neg_sharpe sqrtF model.mean model.cov w = none := by
  constructor
  · simp [stats, hl, volatility, hvol, fdiv]
  · simp [neg_sharpe, volatility, hvol, fdiv]

/-- Claim C3, witness for the amended theorem at a concrete input. -/
theorem C3_witness :
    lookupAll [("A", 1)] (Model.mk ["A"] [1 / 5] [[0]]).assets = some [1]
    ∧ (fun q => q) (quadForm (Model.mk ["A"] [1 / 5] [[0]]).cov [1]) = 0
    ∧ stats (fun q => q) (Model.mk ["A"] [1 / 5] [[0]]) [("A", 1)]
        = some { ret := dotQ [1] (Model.mk ["A"] [1 / 5] [[0]]).mean, vol := 0, sharpe := none }
    ∧ neg_sharpe (fun q => q) (Model.mk ["A"] [1 / 5] [[0]]).mean
        (Model.mk ["A"] [1 / 5] [[0]]).cov [1] = none := by
  have hl : lookupAll [("A", 1)] (Model.mk ["A"] [1 / 5] [[0]]).assets = some [1] := by
    simp [lookupAll, lookup?]
  have hv : (fun q => q) (quadForm (Model.mk ["A"] [1 / 5] [[0]]).cov [1]) = 0 := by
    norm_num [quadForm, matVec, dotQ]
  exact ⟨hl, hv,
    (C3_zero_vol_amended (fun q => q) (Model.mk ["A"] [1 / 5] [[0]]) [("A", 1)] [1] hl hv).1,
    (C3_zero_vol_amended (fun q => q) (Model.mk ["A"] [1 / 5] [[0]]) [("A", 1)] [1] hl hv).2⟩

/-- Claim C4 (confirmed): if the solver reports success only at points that
are feasible within tolerance, and no point is feasible for the target
within that tolerance, then _optimize_for_return returns None — it neither
crashes nor returns a weight vector. -/
theorem C4_infeasible_target_none (model : Model) (target tol : ℚ) (r : OptResult)
    (honest : r.success = true → feasibleForTarget model.mean target tol r.x)
    (infeasible : ∀ w : List ℚ, ¬ feasibleForTarget model.mean target tol w) :
    optimize_for_return model.assets r = none := by
  cases hs : r.success with
  | false => simp [optimize_for_return, hs]
  | true => exact absurd (honest hs) (infeasible r.x)

/-- Claim C4, witness: a single asset with mean 0.10 and a target return of
2 is infeasible within tolerance 1e-6 under the [0,1] box, and the solver
result reporting failure makes _optimize_for_return return None. -/
theorem C4_witness :
    ((⟨[1 / 2], false⟩ : OptResult).success = true →
      feasibleForTarget (Model.mk ["A"] [1 / 10] [[1 / 25]]).mean 2 (1 / 1000000)
        (⟨[1 / 2], false⟩ : OptResult).x)
    ∧ (∀ w : List ℚ,
        ¬ feasibleForTarget (Model.mk ["A"] [1 / 10] [[1 / 25]]).mean 2 (1 / 1000000) w)
    ∧ optimize_for_return (Model.mk ["A"] [1 / 10] [[1 / 25]]).assets ⟨[1 / 2], false⟩
        = none := by
  have honest : (⟨[1 / 2], false⟩ : OptResult).success = true →
      feasibleForTarget (Model.mk ["A"] [1 / 10] [[1 / 25]]).mean 2 (1 / 1000000)
        (⟨[1 / 2], false⟩ : OptResult).x := by
    intro h
    simp at h
  have infeas : ∀ w : List ℚ,
      ¬ feasibleForTarget (Model.mk ["A"] [1 / 10] [[1 / 25]]).mean 2 (1 / 1000000) w := by
    intro w hw
    obtain ⟨h1, h2, h3⟩ := hw
    rcases w with _ | ⟨a, as⟩
    · rw [show dotQ [] (Model.mk ["A"] [1 / 10] [[1 / 25]]).mean = 0 from rfl] at h2
      norm_num at h2
    · have ha : a ≤ 1 + 1 / 1000000 := (h3 a (by simp)).2
      rw [show dotQ (a :: as) (Model.mk ["A"] [1 / 10] [[1 / 25]]).mean
            = a * (1 / 10) + dotQ as [] from rfl, dotQ_nil_right] at h2
      rw [abs_le] at h2
      linarith [h2.1]
  exact ⟨honest, infeas,
    C4_infeasible_target_none (Model.mk ["A"] [1 / 10] [[1 / 25]]) 2 (1 / 1000000)
      ⟨[1 / 2], false⟩ honest infeas⟩

/-- Claim C10 (confirmed): stats succeeds exactly when the weight mapping
has an entry for every asset of the model; a mapping missing any asset makes
stats fail with a key-lookup error (none) instead of treating the missing
weight as zero. -/
theorem C10_stats_requires_every_asset (sqrtF : ℚ → ℚ) (model : Model)
    (weights : List (String × ℚ)) :
    ((stats sqrtF model weights).isSome ↔ ∀ a ∈ model.assets, (lookup? weights a).isSome)
    ∧ (∀ a ∈ model.assets, lookup? weights a = none → stats sqrtF model weights = none) := by
  have hiff : (stats sqrtF model weights).isSome
      ↔ (lookupAll weights model.assets).isSome := by
    cases h : lookupAll weights model.assets <;> simp [stats, h]
  constructor
  · exact hiff.trans (lookupAll_isSome weights model.assets)
  · intro a ha hnone
    have : ¬ (stats sqrtF model weights).isSome := by
      rw [hiff, lookupAll_isSome]
      intro hall
      have := hall a ha
      rw [hnone] at this
      simp at this
    cases h : stats sqrtF model weights with
    | none => rfl
    | some s => rw [h] at this; simp at this

/-- Claim C9, counterexample.  The fallback silently substituted for a
missing market-capitalization datum is 1e9 (one billion), not 1e-9 as the
claim states: with ticker A missing and ticker B at 3e9, the code gives A
the raw cap 10^9 and the weight 1/4, while a 1e-9 fallback would give an
entirely different normalized weight vector. -/
theorem C9_counterexample :
    raw_caps [("A", none), ("B", some (3 * 10 ^ 9))]
      = [("A", (10 : ℚ) ^ 9), ("B", 3 * 10 ^ 9)]
    ∧ get_market_caps [("A", none), ("B", some (3 * 10 ^ 9))]
        = [("A", 1 / 4), ("B", 3 / 4)]
    ∧ get_market_caps_claimFallback [("A", none), ("B", some (3 * 10 ^ 9))]
        = [("A", 1 / (3 * 10 ^ 18 + 1)), ("B", 3 * 10 ^ 18 / (3 * 10 ^ 18 + 1))]
    ∧ get_market_caps [("A", none), ("B", some (3 * 10 ^ 9))]
        ≠ get_market_caps_claimFallback [("A", none), ("B", some (3 * 10 ^ 9))]
    ∧ ((10 : ℚ) ^ 9) ≠ 1 / 10 ^ 9 := by
  have h1 : raw_caps [("A", none), ("B", some (3 * 10 ^ 9))]
      = [("A", (10 : ℚ) ^ 9), ("B", 3 * 10 ^ 9)] := by
    simp [raw_caps]
  have h2 : get_market_caps [("A", none), ("B", some (3 * 10 ^ 9))]
      = [("A", 1 / 4), ("B", 3 / 4)] := by
    simp [get_market_caps, raw_caps, total_cap]
    norm_num
  have h3 : get_market_caps_claimFallback [("A", none), ("B", some (3 * 10 ^ 9))]
      = [("A", 1 / (3 * 10 ^ 18 + 1)), ("B", 3 * 10 ^ 18 / (3 * 10 ^ 18 + 1))] := by
    simp [get_market_caps_claimFallback]
    norm_num
  refine ⟨h1, h2, h3, ?_, by norm_num⟩
  rw [h2, h3]
  simp
  norm_num

/-- Claim C9 (amended): every ticker whose market-cap lookup is missing or
failed is silently given the fallback raw cap 1e9 = 10^9 (not 1e-9), which
is then normalized by the total into that ticker's weight. -/
theorem C9_fallback_is_1e9_amended (lookups : List (String × Option ℚ)) (a : String)
    (h : (a, (none : Option ℚ)) ∈ lookups) :
    (a, (10 : ℚ) ^ 9) ∈ raw_caps lookups
    ∧ (a, (10 : ℚ) ^ 9 / total_cap lookups) ∈ get_market_caps lookups := by
  have h1 : (a, (10 : ℚ) ^ 9) ∈ raw_caps lookups := by
    have := List.mem_map_of_mem (fun p : String × Option ℚ =>
      (p.1, p.2.getD ((10 : ℚ) ^ 9))) h
    simpa [raw_caps] using this
  refine ⟨h1, ?_⟩
  have := List.mem_map_of_mem (fun p : String × ℚ =>
    (p.1, p.2 / total_cap lookups)) h1
  simpa [get_market_caps] using this

/-- Claim C9, witness for the amended theorem at a concrete input. -/
theorem C9_witness :
    (("A", (none : Option ℚ)) ∈ [("A", (none : Option ℚ)), ("B", some (3 * 10 ^ 9))])
    ∧ ("A", (10 : ℚ) ^ 9) ∈ raw_caps [("A", none), ("B", some (3 * 10 ^ 9))]
    ∧ ("A", (10 : ℚ) ^ 9 / total_cap [("A", none), ("B", some (3 * 10 ^ 9))])
        ∈ get_market_caps [("A", none), ("B", some (3 * 10 ^ 9))] := by
  have h : ("A", (none : Option ℚ))
      ∈ [("A", (none : Option ℚ)), ("B", some (3 * 10 ^ 9))] := by simp
  exact ⟨h, (C9_fallback_is_1e9_amended _ "A" h).1, (C9_fallback_is_1e9_amended _ "A" h).2⟩

lemma statsTable_map_fst (sqrtF : ℚ → ℚ) (model : Model) :
    ∀ (l : List (String × List (String × ℚ))) (tbl : List (String × StatsR)),
      statsTable sqrtF model l = some tbl → tbl.map Prod.fst = l.map Prod.fst := by
  intro l
  induction l with
  | nil =>
    intro tbl h
    simp [statsTable] at h
    subst h
    rfl
  | cons p rest ih =>
    intro tbl h
    obtain ⟨name, w⟩ := p
    cases hst : stats sqrtF model w with
    | none => rw [statsTable, hst] at h; simp at h
    | some st =>
      cases hrest : statsTable sqrtF model rest with
      | none => rw [statsTable, hst, hrest] at h; simp at h
      | some tl =>
        rw [statsTable, hst, hrest] at h
        simp at h
        subst h
        simp [ih tl hrest]

/-- Claim C8, counterexample.  compare_all computes the stats of every
named strategy (the printed table) but its return value is the ordered
mapping from strategy name to the strategy's weight vector, not to its
stats: on a one-asset model with a market-cap strategy supplied, the
returned mapping holds weight vectors while the spec-described result
(compareStrategies_specVersion) holds stats records, and the two differ. -/
theorem C8_counterexample :
    (compare_all (fun q => q) (Model.mk ["A"] [1 / 10] [[1 / 25]])
        ⟨[1], true⟩ ⟨[1], true⟩ (some [("A", 1)])).map Prod.snd
      = some [("Equal Weight", PyVal.weights [("A", 1)]),
              ("Max Sharpe", PyVal.weights [("A", 1)]),
              ("Min Volatility", PyVal.weights [("A", 1)]),
              ("Market Cap", PyVal.weights [("A", 1)])]
    ∧ compareStrategies_specVersion (fun q => q) (Model.mk ["A"] [1 / 10] [[1 / 25]])
        (compare_strategies (Model.mk ["A"] [1 / 10] [[1 / 25]])
          ⟨[1], true⟩ ⟨[1], true⟩ (some [("A", 1)]))
      = some [("Equal Weight", PyVal.statsV ⟨1 / 10, 1 / 25, some (5 / 2)⟩),
              ("Max Sharpe", PyVal.statsV ⟨1 / 10, 1 / 25, some (5 / 2)⟩),
              ("Min Volatility", PyVal.statsV ⟨1 / 10, 1 / 25, some (5 / 2)⟩),
              ("Market Cap", PyVal.statsV ⟨1 / 10, 1 / 25, some (5 / 2)⟩)]
    ∧ (compare_all (fun q => q) (Model.mk ["A"] [1 / 10] [[1 / 25]])
        ⟨[1], true⟩ ⟨[1], true⟩ (some [("A", 1)])).map Prod.snd
      ≠ compareStrategies_specVersion (fun q => q) (Model.mk ["A"] [1 / 10] [[1 / 25]])
        (compare_strategies (Model.mk ["A"] [1 / 10] [[1 / 25]])
          ⟨[1], true⟩ ⟨[1], true⟩ (some [("A", 1)])) := by
  have hstrat : compare_strategies (Model.mk ["A"] [1 / 10] [[1 / 25]])
      ⟨[1], true⟩ ⟨[1], true⟩ (some [("A", 1)])
      = [("Equal Weight", [("A", 1)]), ("Max Sharpe", [("A", 1)]),
         ("Min Volatility", [("A", 1)]), ("Market Cap", [("A", 1)])] := by
    simp [compare_strategies, equal_weight, max_sharpe, min_vol, zipDict,
      market_cap_weights]
  have hst : stats (fun q => q) (Model.mk ["A"] [1 / 10] [[1 / 25]]) [("A", 1)]
      = some ⟨1 / 10, 1 / 25, some (5 / 2)⟩ := by
    simp [stats, lookupAll, lookup?, dotQ, volatility, quadForm, matVec, fdiv]
    norm_num
  have htbl : statsTable (fun q => q) (Model.mk ["A"] [1 / 10] [[1 / 25]])
      [("Equal Weight", [("A", 1)]), ("Max Sharpe", [("A", 1)]),
       ("Min Volatility", [("A", 1)]), ("Market Cap", [("A", 1)])]
      = some [("Equal Weight", ⟨1 / 10, 1 / 25, some (5 / 2)⟩),
              ("Max Sharpe", ⟨1 / 10, 1 / 25, some (5 / 2)⟩),
              ("Min Volatility", ⟨1 / 10, 1 / 25, some (5 / 2)⟩),
              ("Market Cap", ⟨1 / 10, 1 / 25, some (5 / 2)⟩)] := by
    simp only [statsTable, hst, Option.some_bind, Option.map_some']
  refine ⟨?_, ?_, ?_⟩
  · rw [compare_all, hstrat, htbl]
    rfl
  · rw [compareStrategies_specVersion, hstrat, htbl]
    rfl
  · rw [compare_all, compareStrategies_specVersion, hstrat, htbl]
    simp

/-- Claim C8 (amended): compare_all computes the stats of every named
strategy in insertion order (Equal Weight, Max Sharpe, Min Volatility, then
Market Cap when supplied and non-empty) — that is the printed table — and
returns the ordered mapping from strategy name to the strategy's weight
vector, preserving that input order; the stats themselves are printed, not
returned. -/
theorem C8_returns_weights_amended (sqrtF : ℚ → ℚ) (model : Model)
    (msResult mvResult : OptResult) (market_caps : Option (List (String × ℚ)))
    (tbl : List (String × StatsR))
    (h : statsTable sqrtF model
        (compare_strategies model msResult mvResult market_caps) = some tbl) :
    compare_all sqrtF model msResult mvResult market_caps
      = some (tbl, (compare_strategies model msResult mvResult market_caps).map
          (fun p => (p.1, PyVal.weights p.2)))
    ∧ tbl.map Prod.fst
        = (compare_strategies model msResult mvResult market_caps).map Prod.fst := by
  constructor
  · rw [compare_all, h]
    rfl
  · exact statsTable_map_fst sqrtF model _ tbl h

/-- Claim C8, witness for the amended theorem at a concrete input. -/
theorem C8_witness :
    statsTable (fun q => q) (Model.mk ["A"] [1 / 5] [[1 / 25]])
        (compare_strategies (Model.mk ["A"] [1 / 5] [[1 / 25]])
          ⟨[1], true⟩ ⟨[1], true⟩ none)
      = some [("Equal Weight", ⟨1 / 5, 1 / 25, some 5⟩),
              ("Max Sharpe", ⟨1 / 5, 1 / 25, some 5⟩),
              ("Min Volatility", ⟨1 / 5, 1 / 25, some 5⟩)]
    ∧ compare_all (fun q => q) (Model.mk ["A"] [1 / 5] [[1 / 25]])
        ⟨[1], true⟩ ⟨[1], true⟩ none
      = some ([("Equal Weight", ⟨1 / 5, 1 / 25, some 5⟩),
               ("Max Sharpe", ⟨1 / 5, 1 / 25, some 5⟩),
               ("Min Volatility", ⟨1 / 5, 1 / 25, some 5⟩)],
          (compare_strategies (Model.mk ["A"] [1 / 5] [[1 / 25]])
            ⟨[1], true⟩ ⟨[1], true⟩ none).map (fun p => (p.1, PyVal.weights p.2))) := by
  have hstrat : compare_strategies (Model.mk ["A"] [1 / 5] [[1 / 25]])
      ⟨[1], true⟩ ⟨[1], true⟩ none
      = [("Equal Weight", [("A", 1)]), ("Max Sharpe", [("A", 1)]),
         ("Min Volatility", [("A", 1)])] := by
    simp [compare_strategies, equal_weight, max_sharpe, min_vol, zipDict]
  have hst : stats (fun q => q) (Model.mk ["A"] [1 / 5] [[1 / 25]]) [("A", 1)]
      = some ⟨1 / 5, 1 / 25, some 5⟩ := by
    simp [stats, lookupAll, lookup?, dotQ, volatility, quadForm, matVec, fdiv]
    norm_num
  have h : statsTable (fun q => q) (Model.mk ["A"] [1 / 5] [[1 / 25]])
      (compare_strategies (Model.mk ["A"] [1 / 5] [[1 / 25]])
        ⟨[1], true⟩ ⟨[1], true⟩ none)
      = some [("Equal Weight", ⟨1 / 5, 1 / 25, some 5⟩),
              ("Max Sharpe", ⟨1 / 5, 1 / 25, some 5⟩),
              ("Min Volatility", ⟨1 / 5, 1 / 25, some 5⟩)] := by
    rw [hstrat]
    simp only [statsTable, hst, Option.some_bind, Option.map_some']
  exact ⟨h, (C8_returns_weights_amended (fun q => q) (Model.mk ["A"] [1 / 5] [[1 / 25]])
    ⟨[1], true⟩ ⟨[1], true⟩ none _ h).1⟩

/-- A two-asset model used to exercise the frontier sweep. -/
def modelC5 : Model := ⟨["A", "B"], [1 / 10, 1 / 5], [[1 / 25, 0], [0, 1 / 25]]⟩

/-- A solver oracle that, at the first frontier target 3/20, reports success
with a one-entry point [1] (shorter than the asset list), so that the stats
call inside the loop raises a KeyError for asset B; at every other target it
returns a well-formed successful point. -/
def solverC5 : ℚ → OptResult :=
  fun t => if t = 3 / 20 then ⟨[1], true⟩ else ⟨[1 / 2, 1 / 2], true⟩

/-- Claim C5, counterexample.  At target 3/20 the loop body raises a
KeyError inside stats — an error kind that is not target-return
infeasibility (the solver reported success and returned a truthy dict) —
yet efficient_frontier absorbs it through its bare except clause, drops the
point, continues the sweep and returns a curve; the error does not
propagate to the caller. -/
theorem C5_counterexample :
    optimize_for_return modelC5.assets (solverC5 (3 / 20)) = some [("A", 1)]
    ∧ stats (fun q => q) modelC5 [("A", 1)] = none
    ∧ efficient_frontier (fun q => q) modelC5 ⟨[1 / 2, 1 / 2], true⟩ solverC5 2
        = some ([1 / 50], [3 / 20]) := by
  have c1 : optimize_for_return modelC5.assets (solverC5 (3 / 20)) = some [("A", 1)] := by
    simp [optimize_for_return, solverC5, modelC5, zipDict]
  have c2 : stats (fun q => q) modelC5 [("A", 1)] = none := by
    simp [stats, modelC5, lookupAll, lookup?]
  have h0 : stats (fun q => q) modelC5 (min_vol modelC5.assets ⟨[1 / 2, 1 / 2], true⟩)
      = some ⟨3 / 20, 1 / 50, some (15 / 2)⟩ := by
    simp [stats, modelC5, min_vol, zipDict, lookupAll, lookup?, dotQ,
      volatility, quadForm, matVec, fdiv]
    norm_num
  have htgt : frontier_targets (3 / 20) (maxQ modelC5.mean) 2 = [3 / 20, 19 / 100] := by
    norm_num [frontier_targets, modelC5, maxQ, linspace, List.range_succ]
  have hp1 : frontier_point (fun q => q) modelC5 solverC5 (3 / 20) = none := by
    simp [frontier_point, c1, c2]
  have hp2 : frontier_point (fun q => q) modelC5 solverC5 (19 / 100)
      = some (1 / 50, 3 / 20) := by
    simp [frontier_point, optimize_for_return, solverC5, modelC5, zipDict,
      stats, lookupAll, lookup?, dotQ, volatility, quadForm, matVec, fdiv,
      show ((19 : ℚ) / 100 = 3 / 20) = False from eq_false (by norm_num)]
    norm_num
  refine ⟨c1, c2, ?_⟩
  rw [efficient_frontier, h0]
  simp only [Option.map_some']
  rw [htgt]
  simp [frontier_curve, hp1, hp2]

/-- Claim C5 (amended): the frontier loop catches every exception raised
while computing a frontier point (the bare except clause) and also skips
None and falsy results, so no error kind raised inside the loop propagates:
whenever the initial stats call on the min_vol weights (which sits outside
the try block) succeeds, efficient_frontier returns a curve, regardless of
what the per-target solver results and per-point stats computations do. -/
theorem C5_all_errors_absorbed_amended (sqrtF : ℚ → ℚ) (model : Model)
    (r : OptResult) (solver : ℚ → OptResult) (k : ℕ) (s : StatsR)
    (h : stats sqrtF model (min_vol model.assets r) = some s) :
    (efficient_frontier sqrtF model r solver k).isSome := by
  simp [efficient_frontier, h]

/-- Claim C5, witness for the amended theorem at a concrete input. -/
theorem C5_witness :
    stats (fun q => q) modelC5 (min_vol modelC5.assets ⟨[1 / 2, 1 / 2], true⟩)
      = some ⟨3 / 20, 1 / 50, some (15 / 2)⟩
    ∧ (efficient_frontier (fun q => q) modelC5 ⟨[1 / 2, 1 / 2], true⟩ solverC5 7).isSome := by
  have h0 : stats (fun q => q) modelC5 (min_vol modelC5.assets ⟨[1 / 2, 1 / 2], true⟩)
      = some ⟨3 / 20, 1 / 50, some (15 / 2)⟩ := by
    simp [stats, modelC5, min_vol, zipDict, lookupAll, lookup?, dotQ,
      volatility, quadForm, matVec, fdiv]
    norm_num
  exact ⟨h0, C5_all_errors_absorbed_amended (fun q => q) modelC5
    ⟨[1 / 2, 1 / 2], true⟩ solverC5 7 ⟨3 / 20, 1 / 50, some (15 / 2)⟩ h0⟩

lemma linspace_length (a b : ℚ) (k : ℕ) : (linspace a b k).length = k := by
  rw [linspace, List.length_map, List.length_range]

lemma linspace_getElem? (a b : ℚ) (k : ℕ) (i : ℕ) (h : i < k) :
    (linspace a b k)[i]? = some (a + (i : ℚ) * (b - a) / ((k : ℚ) - 1)) := by
  rw [linspace, List.getElem?_map, List.getElem?_range h]
  rfl

lemma linspace_first (a b : ℚ) (k : ℕ) (h : 0 < k) : (linspace a b k)[0]? = some a := by
  rw [linspace_getElem? a b k 0 h]
  norm_num

lemma linspace_last (a b : ℚ) (k : ℕ) (h : 2 ≤ k) :
    (linspace a b k)[k - 1]? = some b := by
  rw [linspace_getElem? a b k (k - 1) (by omega)]
  have h1 : (1 : ℕ) ≤ k := by omega
  have hcast : ((k - 1 : ℕ) : ℚ) = (k : ℚ) - 1 := by
    push_cast [h1]
    ring
  have hk2 : (2 : ℚ) ≤ (k : ℚ) := by exact_mod_cast h
  have hne : (k : ℚ) - 1 ≠ 0 := by
    intro hzero
    rw [sub_eq_zero] at hzero
    rw [hzero] at hk2
    norm_num at hk2
  rw [hcast]
  congr 1
  field_simp

lemma linspace_spacing (a b : ℚ) (k : ℕ) (i : ℕ) (h : i + 1 < k) :
    (linspace a b k)[i + 1]?.getD 0 - (linspace a b k)[i]?.getD 0
      = (b - a) / ((k : ℚ) - 1) := by
  rw [linspace_getElem? a b k (i + 1) h, linspace_getElem? a b k i (by omega)]
  simp only [Option.getD_some]
  push_cast
  ring

/-- Claim C6, counterexample.  The claim quantifies over every point count
k, but for k = 1 the generated grid is the single value min_ret: it is not
inclusive of both endpoints, as the upper endpoint 0.95 * max mean is
absent. -/
theorem C6_counterexample :
    frontier_targets (3 / 20) (1 / 5) 1 = [3 / 20]
    ∧ ((1 / 5 : ℚ) * (95 / 100)) = 19 / 100
    ∧ (19 / 100 : ℚ) ∉ frontier_targets (3 / 20) (1 / 5) 1 := by
  have h : frontier_targets (3 / 20) (1 / 5) 1 = [3 / 20] := by
    norm_num [frontier_targets, linspace, List.range_succ]
  refine ⟨h, by norm_num, ?_⟩
  rw [h]
  simp
  norm_num

/-- Claim C6 (amended): for every point count k ≥ 2 (50 by default),
efficient_frontier generates its target grid as exactly the k evenly spaced
values from the expected return of the min_vol portfolio (the stats of the
min_vol weights) up to 0.95 times the largest individual mean return,
inclusive of both endpoints, with constant spacing (max - min)/(k - 1). -/
theorem C6_targets_amended (sqrtF : ℚ → ℚ) (model : Model) (r : OptResult)
    (solver : ℚ → OptResult) (k : ℕ) (s : StatsR)
    (h : stats sqrtF model (min_vol model.assets r) = some s) (hk : 2 ≤ k) :
    efficient_frontier sqrtF model r solver k
      = some ((frontier_curve sqrtF model solver
            (frontier_targets s.ret (maxQ model.mean) k)).map Prod.fst,
          (frontier_curve sqrtF model solver
            (frontier_targets s.ret (maxQ model.mean) k)).map Prod.snd)
    ∧ (frontier_targets s.ret (maxQ model.mean) k).length = k
    ∧ (frontier_targets s.ret (maxQ model.mean) k)[0]? = some s.ret
    ∧ (frontier_targets s.ret (maxQ model.mean) k)[k - 1]?
        = some (maxQ model.mean * (95 / 100))
    ∧ (∀ i : ℕ, i + 1 < k →
        (frontier_targets s.ret (maxQ model.mean) k)[i + 1]?.getD 0
          - (frontier_targets s.ret (maxQ model.mean) k)[i]?.getD 0
          = (maxQ model.mean * (95 / 100) - s.ret) / ((k : ℚ) - 1))
    ∧ n_points_default = 50 := by
  refine ⟨by simp [efficient_frontier, h], ?_, ?_, ?_, ?_, rfl⟩
  · exact linspace_length s.ret (maxQ model.mean * (95 / 100)) k
  · exact linspace_first s.ret (maxQ model.mean * (95 / 100)) k (by omega)
  · exact linspace_last s.ret (maxQ model.mean * (95 / 100)) k hk
  · exact fun i hi => linspace_spacing s.ret (maxQ model.mean * (95 / 100)) k i hi

/-- Claim C6, witness for the amended theorem at a concrete input. -/
theorem C6_witness :
    stats (fun q => q) modelC5 (min_vol modelC5.assets ⟨[1 / 2, 1 / 2], true⟩)
      = some ⟨3 / 20, 1 / 50, some (15 / 2)⟩
    ∧ 2 ≤ 2
    ∧ (frontier_targets ((⟨3 / 20, 1 / 50, some (15 / 2)⟩ : StatsR).ret)
        (maxQ modelC5.mean) 2)[0]? = some ((⟨3 / 20, 1 / 50, some (15 / 2)⟩ : StatsR).ret)
    ∧ (frontier_targets ((⟨3 / 20, 1 / 50, some (15 / 2)⟩ : StatsR).ret)
        (maxQ modelC5.mean) 2)[2 - 1]? = some (maxQ modelC5.mean * (95 / 100)) := by
  have h0 : stats (fun q => q) modelC5 (min_vol modelC5.assets ⟨[1 / 2, 1 / 2], true⟩)
      = some ⟨3 / 20, 1 / 50, some (15 / 2)⟩ := by
    simp [stats, modelC5, min_vol, zipDict, lookupAll, lookup?, dotQ,
      volatility, quadForm, matVec, fdiv]
    norm_num
  have hmain := C6_targets_amended (fun q => q) modelC5 ⟨[1 / 2, 1 / 2], true⟩
    (fun t => ⟨[], false⟩) 2 ⟨3 / 20, 1 / 50, some (15 / 2)⟩ h0 (by norm_num)
  exact ⟨h0, by norm_num, hmain.2.2.1, hmain.2.2.2.1⟩

lemma linspace_sorted (a b : ℚ) (k : ℕ) (hab : a ≤ b) :
    (linspace a b k).Sorted (· ≤ ·) := by
  match k with
  | 0 => simp [linspace]
  | 1 => simp [linspace]
  | (n + 2) =>
    rw [linspace, List.Sorted, List.pairwise_map]
    have hpos : (0 : ℚ) < ((n + 2 : ℕ) : ℚ) - 1 := by
      push_cast
      linarith
    have hnn : (0 : ℚ) ≤ (b - a) / (((n + 2 : ℕ) : ℚ) - 1) :=
      div_nonneg (by linarith) (le_of_lt hpos)
    refine List.Pairwise.imp ?_ (List.pairwise_lt_range (n + 2))
    intro i j hij
    have hcast : (i : ℚ) ≤ (j : ℚ) := by exact_mod_cast le_of_lt hij
    have hmul := mul_le_mul_of_nonneg_right hcast hnn
    calc a + (i : ℚ) * (b - a) / (((n + 2 : ℕ) : ℚ) - 1)
        = a + (i : ℚ) * ((b - a) / (((n + 2 : ℕ) : ℚ) - 1)) := by ring
      _ ≤ a + (j : ℚ) * ((b - a) / (((n + 2 : ℕ) : ℚ) - 1)) := by linarith
      _ = a + (j : ℚ) * (b - a) / (((n + 2 : ℕ) : ℚ) - 1) := by ring

lemma frontier_curve_snd_sublist (sqrtF : ℚ → ℚ) (model : Model)
    (solver : ℚ → OptResult) (targets : List ℚ)
    (hx : ∀ t ∈ targets, ((frontier_point sqrtF model solver t).map Prod.snd).getD t = t) :
    ((frontier_curve sqrtF model solver targets).map Prod.snd).Sublist targets := by
  induction targets with
  | nil => simp [frontier_curve]
  | cons t ts ih =>
    have hts : ∀ u ∈ ts, ((frontier_point sqrtF model solver u).map Prod.snd).getD u = u :=
      fun u hu => hx u (List.mem_cons_of_mem t hu)
    rw [frontier_curve, List.filterMap_cons]
    cases hp : frontier_point sqrtF model solver t with
    | none => exact (ih hts).cons t
    | some p =>
      have hpt : p.2 = t := by
        have h := hx t (List.mem_cons_self t ts)
        rw [hp] at h
        simpa using h
      rw [List.map_cons, hpt]
      exact (ih hts).cons₂ t

/-- The two-asset model of the non-monotone frontier: means 0.10 and 0.08
with variances that pull the minimum-volatility portfolio's return (0.098)
above 0.95 times the highest mean (0.095). -/
def modelC7 : Model := ⟨["A", "B"], [1 / 10, 2 / 25], [[1 / 25, 0], [0, 9 / 25]]⟩

/-- A solver oracle that returns exactly feasible, successful points for the
two targets of the sweep: [9/10, 1/10] achieves return 49/500 = 0.098 and
[3/4, 1/4] achieves return 19/200 = 0.095. -/
def solverC7 : ℚ → OptResult :=
  fun t => if t = 49 / 500 then ⟨[9 / 10, 1 / 10], true⟩ else ⟨[3 / 4, 1 / 4], true⟩

/-- Claim C7, counterexample.  When the min_vol portfolio's return exceeds
0.95 times the highest individual mean, the linspace target grid is
decreasing, so the frontier's retained return coordinates are decreasing
even though every retained point is exactly feasible for its target (the
solver is exact, tolerance 0): the produced return sequence
[49/500, 19/200] = [0.098, 0.095] is not non-decreasing. -/
theorem C7_counterexample :
    efficient_frontier (fun q => q) modelC7 ⟨[9 / 10, 1 / 10], true⟩ solverC7 2
      = some ([9 / 250, 9 / 200], [49 / 500, 19 / 200])
    ∧ ¬ ([49 / 500, 19 / 200] : List ℚ).Sorted (· ≤ ·)
    ∧ feasibleForTarget modelC7.mean (49 / 500) 0 [9 / 10, 1 / 10]
    ∧ feasibleForTarget modelC7.mean (19 / 200) 0 [3 / 4, 1 / 4] := by
  have h1 : stats (fun q => q) modelC7 (min_vol modelC7.assets ⟨[9 / 10, 1 / 10], true⟩)
      = some ⟨49 / 500, 9 / 250, some (49 / 18)⟩ := by
    simp [stats, modelC7, min_vol, zipDict, lookupAll, lookup?, dotQ,
      volatility, quadForm, matVec, fdiv]
    norm_num
  have h2 : frontier_targets (49 / 500) (maxQ modelC7.mean) 2 = [49 / 500, 19 / 200] := by
    norm_num [frontier_targets, modelC7, maxQ, linspace, List.range_succ]
  have h3 : frontier_point (fun q => q) modelC7 solverC7 (49 / 500)
      = some (9 / 250, 49 / 500) := by
    simp [frontier_point, optimize_for_return, solverC7, modelC7, zipDict,
      stats, lookupAll, lookup?, dotQ, volatility, quadForm, matVec, fdiv]
    norm_num
  have h4 : frontier_point (fun q => q) modelC7 solverC7 (19 / 200)
      = some (9 / 200, 19 / 200) := by
    simp [frontier_point, optimize_for_return, solverC7, modelC7, zipDict,
      stats, lookupAll, lookup?, dotQ, volatility, quadForm, matVec, fdiv,
      show ((19 : ℚ) / 200 = 49 / 500) = False from eq_false (by norm_num)]
    norm_num
  refine ⟨?_, ?_, ?_, ?_⟩
  · rw [efficient_frontier, h1]
    simp only [Option.map_some']
    rw [h2]
    simp [frontier_curve, h3, h4]
  · intro hs
    have := (List.sorted_cons.mp hs).1 (19 / 200) (by simp)
    norm_num at this
  · refine ⟨by norm_num, by norm_num [dotQ, modelC7], ?_⟩
    intro q hq
    rcases List.mem_cons.mp hq with h | h
    · subst h; norm_num
    · simp at h; subst h; norm_num
  · refine ⟨by norm_num, by norm_num [dotQ, modelC7], ?_⟩
    intro q hq
    rcases List.mem_cons.mp hq with h | h
    · subst h; norm_num
    · simp at h; subst h; norm_num

/-- Claim C7 (amended): whenever the min_vol portfolio's return does not
exceed 0.95 times the highest individual mean (so the linspace target grid
is non-decreasing) and every retained frontier point achieves its target
return exactly, the return coordinates of the frontier curve produced by
efficient_frontier are monotonically non-decreasing across the ordered
sequence of retained points, even after dropped points. -/
theorem C7_monotone_amended (sqrtF : ℚ → ℚ) (model : Model) (r : OptResult)
    (solver : ℚ → OptResult) (k : ℕ) (s : StatsR)
    (h : stats sqrtF model (min_vol model.assets r) = some s)
    (hab : s.ret ≤ maxQ model.mean * (95 / 100))
    (hexact : ∀ t ∈ frontier_targets s.ret (maxQ model.mean) k,
        ((frontier_point sqrtF model solver t).map Prod.snd).getD t = t)
    (vols rets : List ℚ)
    (hout : efficient_frontier sqrtF model r solver k = some (vols, rets)) :
    rets.Sorted (· ≤ ·) := by
  rw [efficient_frontier, h, Option.map_some'] at hout
  simp only [Option.some.injEq, Prod.mk.injEq] at hout
  obtain ⟨h1, h2⟩ := hout
  subst h2
  exact List.Pairwise.sublist
    (frontier_curve_snd_sublist sqrtF model solver _ hexact)
    (linspace_sorted s.ret (maxQ model.mean * (95 / 100)) k hab)

/-- The exact solver for the increasing two-target sweep on modelC5:
[1/2, 1/2] achieves return 3/20 and [1/10, 9/10] achieves return 19/100. -/
def solverC7w : ℚ → OptResult :=
  fun t => if t = 3 / 20 then ⟨[1 / 2, 1 / 2], true⟩ else ⟨[1 / 10, 9 / 10], true⟩

/-- Claim C7, witness for the amended theorem at a concrete input. -/
theorem C7_witness :
    stats (fun q => q) modelC5 (min_vol modelC5.assets ⟨[1 / 2, 1 / 2], true⟩)
      = some ⟨3 / 20, 1 / 50, some (15 / 2)⟩
    ∧ ((3 : ℚ) / 20 ≤ maxQ modelC5.mean * (95 / 100))
    ∧ (∀ t ∈ frontier_targets (3 / 20) (maxQ modelC5.mean) 2,
        ((frontier_point (fun q => q) modelC5 solverC7w t).map Prod.snd).getD t = t)
    ∧ efficient_frontier (fun q => q) modelC5 ⟨[1 / 2, 1 / 2], true⟩ solverC7w 2
        = some ([1 / 50, 41 / 1250], [3 / 20, 19 / 100])
    ∧ ([3 / 20, 19 / 100] : List ℚ).Sorted (· ≤ ·) := by
  have h0 : stats (fun q => q) modelC5 (min_vol modelC5.assets ⟨[1 / 2, 1 / 2], true⟩)
      = some ⟨3 / 20, 1 / 50, some (15 / 2)⟩ := by
    simp [stats, modelC5, min_vol, zipDict, lookupAll, lookup?, dotQ,
      volatility, quadForm, matVec, fdiv]
    norm_num
  have hab : ((3 : ℚ) / 20 ≤ maxQ modelC5.mean * (95 / 100)) := by
    norm_num [modelC5, maxQ]
  have htgt : frontier_targets (3 / 20) (maxQ modelC5.mean) 2 = [3 / 20, 19 / 100] := by
    norm_num [frontier_targets, modelC5, maxQ, linspace, List.range_succ]
  have hp1 : frontier_point (fun q => q) modelC5 solverC7w (3 / 20)
      = some (1 / 50, 3 / 20) := by
    simp [frontier_point, optimize_for_return, solverC7w, modelC5, zipDict,
      stats, lookupAll, lookup?, dotQ, volatility, quadForm, matVec, fdiv]
    norm_num
  have hp2 : frontier_point (fun q => q) modelC5 solverC7w (19 / 100)
      = some (41 / 1250, 19 / 100) := by
    simp [frontier_point, optimize_for_return, solverC7w, modelC5, zipDict,
      stats, lookupAll, lookup?, dotQ, volatility, quadForm, matVec, fdiv,
      show ((19 : ℚ) / 100 = 3 / 20) = False from eq_false (by norm_num)]
    norm_num
  have hexact : ∀ t ∈ frontier_targets (3 / 20) (maxQ modelC5.mean) 2,
      ((frontier_point (fun q => q) modelC5 solverC7w t).map Prod.snd).getD t = t := by
    rw [htgt]
    intro t ht
    rcases List.mem_cons.mp ht with h | h
    · subst h; rw [hp1]; rfl
    · simp at h; subst h; rw [hp2]; rfl
  have hout : efficient_frontier (fun q => q) modelC5 ⟨[1 / 2, 1 / 2], true⟩ solverC7w 2
      = some ([1 / 50, 41 / 1250], [3 / 20, 19 / 100]) := by
    rw [efficient_frontier, h0]
    simp only [Option.map_some']
    rw [htgt]
    simp [frontier_curve, hp1, hp2]
  exact ⟨h0, hab, hexact, hout,
    C7_monotone_amended (fun q => q) modelC5 ⟨[1 / 2, 1 / 2], true⟩ solverC7w 2
      ⟨3 / 20, 1 / 50, some (15 / 2)⟩ h0 hab hexact
      [1 / 50, 41 / 1250] [3 / 20, 19 / 100] hout⟩

end Markowitz
